import Mathlib

/-! Verification development for the crypto-price-agent repository.
    The definitions below are a shallow embedding of src/crypto.py:
    pure Python string manipulation is modelled on Lean strings and
    character lists, the network, agent, speech-recognition, hashing
    and text-to-speech services are modelled as oracle parameters, and
    the Streamlit page run is modelled as a function from the session
    state and the input events to the new session state together with
    the list of user-interface effects the script emits. -/

/-- Python str.strip: drop whitespace characters from both ends. -/
def pyStrip (s : String) : String :=
  String.mk (((s.data.dropWhile Char.isWhitespace).reverse.dropWhile Char.isWhitespace).reverse)

/-- Python str.upper, mapping each character to upper case. -/
def pyUpper (s : String) : String :=
  String.mk (s.data.map Char.toUpper)

/-- Split a character list at every occurrence of the separator
    character.  This mirrors Python str.split with a one-character
    separator: the empty input gives one empty piece, and n separators
    give n + 1 pieces. -/
def splitChar (c : Char) : List Char → List (List Char)
  | [] => [[]]
  | x :: xs =>
    match splitChar c xs with
    | [] => [[]]
    | g :: gs => if x = c then [] :: g :: gs else (x :: g) :: gs

/-- Python str.split with a one-character separator, on strings. -/
def pySplit (c : Char) (s : String) : List String :=
  (splitChar c s.data).map String.mk

/-- Python sep.join applied to a list of strings. -/
def pyJoin (sep : String) : List String → String
  | [] => ""
  | [x] => x
  | x :: y :: rest => x ++ sep ++ pyJoin sep (y :: rest)

/-- Character for a single decimal digit value below ten. -/
def digitChar (d : Nat) : Char := Char.ofNat (48 + d)

/-- Decimal digits of a natural number, most significant first; the
    first argument is recursion fuel, always sufficient when it exceeds
    the number of digits. -/
def intDigitsAux : Nat → Nat → List Char
  | 0, _ => []
  | fuel + 1, n =>
    if n < 10 then [digitChar n]
    else intDigitsAux fuel (n / 10) ++ [digitChar (n % 10)]

/-- Decimal digit characters of a natural number, most significant
    first. -/
def intDigits (n : Nat) : List Char := intDigitsAux (n + 1) n

/-- Insert a comma after every three digits counting from the right;
    the input is the digit list reversed (least significant first). -/
def commaGroupRev : List Char → List Char
  | a :: b :: c :: d :: rest => a :: b :: c :: ',' :: commaGroupRev (d :: rest)
  | l => l

/-- Thousands grouping of a digit list, as produced by the comma flag
    of a Python format specification. -/
def commaGroup (ds : List Char) : List Char := (commaGroupRev ds.reverse).reverse

/-- Exactly eight decimal digits of a number below 10 ^ 8, most
    significant first, with leading zeros kept. -/
def fracDigits8 (n : Nat) : String :=
  String.mk ((List.range 8).map (fun i => digitChar (n / 10 ^ (7 - i) % 10)))

/-- Model of the Python format specification comma-dot-8-f applied to
    the fetched price; the price is represented exactly as a natural
    number scaled by 10 ^ 8. -/
def formatComma8 (p : Nat) : String :=
  String.mk (commaGroup (intDigits (p / 100000000))) ++ "." ++ fracDigits8 (p % 100000000)

/-- Decoded body of one per-symbol price response.  The priceField is
    the scaled numeric value of the price entry when the decoded JSON
    object carries one; a response whose conversion by float would fail
    is modelled as a raised outcome of the interaction instead. -/
structure PriceData where
  priceField : Option Nat
deriving DecidableEq

/-- One per-symbol network interaction of get_crypto_price: either the
    request and its JSON decoding completed, giving a status code and
    the decoded body, or some step raised an exception whose message
    string is kept. -/
inductive FetchOutcome where
  | response (status : Nat) (data : PriceData)
  | raised (msg : String)
deriving DecidableEq

/-- Per-symbol body of the loop of get_crypto_price, src/crypto.py
    lines 84 to 95: a 200 response carrying a price gives the formatted
    price line, any other response gives the invalid marker, and an
    exception gives the error marker carrying the message. -/
def fetch_one (net : String → FetchOutcome) (symbol : String) : String :=
  match net symbol with
  | FetchOutcome.raised msg => symbol ++ ": ❌ Error - " ++ msg
  | FetchOutcome.response status data =>
    if status = 200 then
      match data.priceField with
      | some p => symbol ++ ": $" ++ formatComma8 p
      | none => symbol ++ ": ❌ Invalid or not found"
    else symbol ++ ": ❌ Invalid or not found"

/-- Failure of a per-symbol interaction: an exception, a non-200
    status, or a body without a price field. -/
def isFailure : FetchOutcome → Bool
  | FetchOutcome.raised _ => true
  | FetchOutcome.response status data => !(status == 200 && data.priceField.isSome)

/-- The results list built by get_crypto_price: every comma-separated
    segment is stripped and upper-cased, and each normalized symbol is
    fetched independently through the network oracle. -/
def price_results (net : String → FetchOutcome) (symbols : String) : List String :=
  ((pySplit ',' symbols).map (fun s => pyUpper (pyStrip s))).map (fetch_one net)

/-- Embedding of get_crypto_price, src/crypto.py lines 78 to 96. -/
def get_crypto_price (net : String → FetchOutcome) (symbols : String) : String :=
  "Prices:\n" ++ pyJoin "\n" (price_results net symbols)

/-- Minimal JSON value model for the exchangeInfo response. -/
inductive Json where
  | jstr (s : String)
  | jnum (n : Int)
  | jarr (xs : List Json)
  | jobj (fields : List (String × Json))

/-- Python subscripting of a decoded JSON value by a key: the lookup
    raises KeyError when the key is absent and TypeError on a value
    that is not an object; the kept message models the str of the
    exception. -/
def Json.getKey : Json → String → Except String Json
  | Json.jobj fields, key =>
    match fields.lookup key with
    | some v => Except.ok v
    | none => Except.error ("KeyError: " ++ key)
  | _, _ => Except.error "TypeError: value is not subscriptable"

/-- Python iteration over the symbols value: only an array yields the
    element list here, anything else raises. -/
def Json.asArray : Json → Except String (List Json)
  | Json.jarr xs => Except.ok xs
  | _ => Except.error "TypeError: value is not iterable"

/-- Python equality between a decoded JSON value and a string literal:
    true exactly for an equal string, false otherwise, never raising. -/
def jsonEqStr : Json → String → Bool
  | Json.jstr s, t => s == t
  | _, _ => false

/-- The comprehension of list_all_binance_symbols: for each entry the
    status field is read first (raising on a missing key), and for the
    entries whose status equals TRADING the symbol field is collected. -/
def collectTrading : List Json → Except String (List Json)
  | [] => Except.ok []
  | s :: rest => do
    let status ← s.getKey "status"
    if jsonEqStr status "TRADING" then
      let sym ← s.getKey "symbol"
      let tail ← collectTrading rest
      Except.ok (sym :: tail)
    else
      collectTrading rest

/-- The comma join over the sample: every joined item must be a string,
    otherwise Python raises a TypeError. -/
def joinCommaJson : List Json → Except String String
  | [] => Except.ok ""
  | [Json.jstr s] => Except.ok s
  | Json.jstr s :: y :: rest => do
    let t ← joinCommaJson (y :: rest)
    Except.ok (s ++ ", " ++ t)
  | _ => Except.error "TypeError: sequence item: expected str instance"

/-- Body of the try block of list_all_binance_symbols, src/crypto.py
    lines 101 to 108.  The first argument is the outcome of the request
    together with its JSON decoding; every later failure (field access,
    iteration, join) short-circuits to the error case. -/
def fetch_symbols_attempt (resp : Except String Json) : Except String String := do
  let data ← resp
  let symsField ← data.getKey "symbols"
  let entries ← symsField.asArray
  let symbols ← collectTrading entries
  let sample ← joinCommaJson (symbols.take 20)
  Except.ok ("Total trading pairs: " ++ toString symbols.length ++ "\nSample: " ++ sample ++ ", ...")

/-- Embedding of list_all_binance_symbols, src/crypto.py lines 98 to
    110: any raised step is caught and rendered as one error string. -/
def list_all_binance_symbols (resp : Except String Json) : String :=
  match fetch_symbols_attempt resp with
  | Except.ok out => out
  | Except.error e => "Error fetching symbols: " ++ e

/-- A well-formed exchangeInfo entry built from a symbol name and a
    status string, as the endpoint returns them. -/
def mkEntry (name status : String) : Json :=
  Json.jobj [("symbol", Json.jstr name), ("status", Json.jstr status)]

/-- A well-formed exchangeInfo response holding the given rows. -/
def exchangeInfoJson (rows : List (String × String)) : Json :=
  Json.jobj [("symbols", Json.jarr (rows.map (fun r => mkEntry r.1 r.2)))]

/-- Names of the rows whose status is TRADING, kept in order. -/
def tradingNames (rows : List (String × String)) : List String :=
  (rows.filter (fun r => r.2 == "TRADING")).map (fun r => r.1)

/-- Effects the script sends to the user interface or the terminal. -/
inductive Effect where
  | errorBox (msg : String)
  | warningBox (msg : String)
  | infoBox (msg : String)
  | successBox (msg : String)
  | pageConfig
  | title (text : String)
  | writeText (text : String)
  | markdown (text : String)
  | spinner (text : String)
  | htmlAudio (bytes : List Nat)
  | audioPlayer (bytes : List Nat)
  | log (text : String)
  | rerunSignal
  | crash (text : String)
deriving DecidableEq

/-- Per-session Streamlit state used by the script.  The source guards
    the history key behind an existence check before every use; this is
    modelled by the history field always being present, an absent key
    standing for the empty list. -/
structure SessionState where
  audio_enabled : Bool
  history : List (String × String)
  last_audio_hash : Option String
deriving DecidableEq

/-- Embedding of append_history, src/crypto.py lines 127 to 131. -/
def append_history (st : SessionState) (role text : String) : SessionState :=
  { st with history := st.history ++ [(role, text)] }

/-- Outcomes of the external steps of speak_text_background: mp3
    generation for the given text, the components html embedding, and
    the two st.audio fallback calls. -/
structure TTSOracle where
  gen : String → Except String (List Nat)
  htmlOutcome : Except String Unit
  audioOutcome1 : Except String Unit
  audioOutcome2 : Except String Unit

/-- Embedding of speak_text_background, src/crypto.py lines 155 to 205.
    Every step sits inside a try block of the source, so every failure
    is converted into a logged effect; a propagated exception would be
    an error value of the result, which the theorems below rule out. -/
def speak_text_background (o : TTSOracle) (text : String) : Except String (List Effect) :=
  match o.gen text with
  | Except.error e => Except.ok [Effect.log ("TTS generation/playback failed: " ++ e)]
  | Except.ok audio_bytes =>
    match o.htmlOutcome with
    | Except.ok _ =>
      match o.audioOutcome1 with
      | Except.ok _ => Except.ok [Effect.htmlAudio audio_bytes, Effect.audioPlayer audio_bytes]
      | Except.error e =>
        Except.ok [Effect.htmlAudio audio_bytes, Effect.log ("st.audio fallback error: " ++ e)]
    | Except.error eh =>
      match o.audioOutcome2 with
      | Except.ok _ =>
        Except.ok [Effect.log ("components.html error: " ++ eh), Effect.audioPlayer audio_bytes]
      | Except.error e2 =>
        Except.ok [Effect.log ("components.html error: " ++ eh),
          Effect.log ("st.audio error after components failed: " ++ e2)]

/-- Effects of a speak_text_background call as its callers see them; an
    escaped exception would surface as a crash effect. -/
def speakEffects (o : TTSOracle) (text : String) : List Effect :=
  match speak_text_background o text with
  | Except.ok es => es
  | Except.error e => [Effect.crash e]

/-- External services the script calls: the agent run, speech
    recognition, text to speech, and the audio content hash. -/
structure Oracles where
  agent : String → Except String String
  recognize : List Nat → Except String String
  tts : TTSOracle
  hashFn : List Nat → String

/-- Embedding of the text form submit handler, src/crypto.py lines 239
    to 251: a falsy submission (empty or whitespace-only input) skips
    the whole block; otherwise the stripped value and the agent reply
    are appended and the reply is spoken. -/
def handle_text_submit (o : Oracles) (st : SessionState) (submit : Bool) (user_input : String) :
    SessionState × List Effect :=
  if submit && user_input != "" && pyStrip user_input != "" then
    let val := pyStrip user_input
    let st1 := append_history st "You" val
    let response :=
      match o.agent val with
      | Except.ok r => r
      | Except.error e => "Agent error: " ++ e
    let st2 := append_history st1 "Agent" response
    (st2, Effect.spinner "Agent is thinking..." :: speakEffects o.tts response)
  else (st, [])

/-- Transcription and agent steps shared by the recorded and uploaded
    audio paths, src/crypto.py lines 264 to 276 and 293 to 315: the
    steps run inside one try block whose handler shows a recognition
    error box, so a recognition failure appends nothing, while an agent
    failure still leaves the already appended user line in place. -/
def handle_audio_process (o : Oracles) (st : SessionState) (bytes : List Nat) :
    SessionState × List Effect :=
  match o.recognize bytes with
  | Except.error e => (st, [Effect.errorBox ("Voice recognition failed: " ++ e)])
  | Except.ok recognized =>
    let st1 := append_history st "You" recognized
    match o.agent recognized with
    | Except.error e =>
      (st1, [Effect.spinner "Agent is thinking...",
        Effect.errorBox ("Voice recognition failed: " ++ e)])
    | Except.ok response =>
      let st2 := append_history st1 "Agent" response
      (st2, Effect.spinner "Agent is thinking..." :: speakEffects o.tts response)

/-- Message of the duplicate-audio branch, src/crypto.py line 287. -/
def dup_audio_msg : String := "Audio already processed — record again to get a new response."

/-- Embedding of the recorded-audio block, src/crypto.py lines 280 to
    315: falsy audio is skipped, a hash equal to the stored one only
    shows an info box, and otherwise the hash is stored before the
    audio is processed. -/
def handle_audio (o : Oracles) (st : SessionState) (audio_bytes : Option (List Nat)) :
    SessionState × List Effect :=
  match audio_bytes with
  | none => (st, [])
  | some bytes =>
    if bytes.isEmpty then (st, [])
    else
      let current_hash := o.hashFn bytes
      if st.last_audio_hash = some current_hash then
        (st, [Effect.infoBox dup_audio_msg])
      else
        handle_audio_process o { st with last_audio_hash := some current_hash } bytes

/-- Inputs of one script run: the enable-audio button, the text form,
    the browser recorder output and the fallback WAV upload. -/
structure UIEvent where
  enableClicked : Bool
  submit : Bool
  textInput : String
  recordedAudio : Option (List Nat)
  uploadedWav : Option (List Nat)

/-- Info text of the enable-audio gate, src/crypto.py line 223 (inner
    quotation marks of the source text omitted). -/
def enable_info_msg : String :=
  "Click Enable audio / Start demo to activate voice features (required for browsers)."

def tip_msg : String := "Always use pairs, for example btcusdt, ethusdt, dogeusdt etc..."

def upload_warn_msg : String :=
  "Install audio-recorder-streamlit for browser Record/Stop UI. Fallback: upload WAV."

/-- When the recorder component is missing, line 280 of the source
    reads the never-assigned audio_bytes name and the script dies. -/
def name_error_msg : String := "NameError: name audio_bytes is not defined"

/-- Conversation rendering loop, src/crypto.py lines 318 to 323. -/
def render_history (h : List (String × String)) : List Effect :=
  h.map (fun p =>
    if p.1 = "You" then Effect.markdown ("**You:** " ++ p.2)
    else Effect.markdown ("**Agent:** " ++ p.2))

/-- Main page body after the key check, src/crypto.py lines 208 to 326:
    the enable-audio gate stops the run early, then the text form is
    handled, then the voice area; without the recorder component the
    script processes an optional upload and then crashes on the
    undefined audio_bytes name at line 280, so the conversation display
    is only reached on the recorder path. -/
def main_ui (o : Oracles) (recorderAvailable : Bool) (ev : UIEvent) (st : SessionState) :
    SessionState × List Effect :=
  if st.audio_enabled then
    let r1 := handle_text_submit o st ev.submit ev.textInput
    if recorderAvailable then
      let r2 := handle_audio o r1.1 ev.recordedAudio
      (r2.1, Effect.writeText tip_msg :: r1.2
          ++ Effect.markdown "## Voice (push-to-talk)" :: r2.2
          ++ Effect.markdown "### Conversation" :: render_history r2.1.history)
    else
      let r2 :=
        match ev.uploadedWav with
        | none => (r1.1, ([] : List Effect))
        | some bytes => handle_audio_process o r1.1 bytes
      (r2.1, Effect.writeText tip_msg :: r1.2
          ++ Effect.markdown "## Voice (push-to-talk)" :: Effect.warningBox upload_warn_msg :: r2.2
          ++ [Effect.crash name_error_msg])
  else if ev.enableClicked then
    ({ st with audio_enabled := true },
      [Effect.successBox "Audio enabled! You can now interact with voice.", Effect.rerunSignal])
  else
    (st, [Effect.infoBox enable_info_msg])

/-- Lookup in st.secrets, where opening the secrets store may itself
    raise (the error case), which the source swallows into None. -/
def secrets_lookup (secrets : Except String (List (String × String))) : Option String :=
  match secrets with
  | Except.ok tbl => tbl.lookup "GEMINI_API_KEY"
  | Except.error _ => none

/-- Embedding of get_gemini_key, src/crypto.py lines 44 to 53: a truthy
    environment value wins, a falsy one falls through to the secrets
    store. -/
def get_gemini_key (env : String → Option String)
    (secrets : Except String (List (String × String))) : Option String :=
  match env "GEMINI_API_KEY" with
  | some k => if k = "" then secrets_lookup secrets else some k
  | none => secrets_lookup secrets

/-- Python truthiness of the optional key string. -/
def key_truthy : Option String → Bool
  | none => false
  | some s => s != ""

/-- Error text shown when the key is missing, src/crypto.py lines 57
    to 61. -/
def gemini_missing_msg : String :=
  "GEMINI_API_KEY nahin mila. Add karein:\n1) environment variable GEMINI_API_KEY (ya .env), ya\n2) .streamlit/secrets.toml (GEMINI_API_KEY = \"...\")"

/-- Top of the script, src/crypto.py lines 55 to 62, followed by the
    page body: a falsy key shows the error box and stops before any
    page effect is emitted; otherwise the page is configured, titled
    and rendered. -/
def crypto_app_script (env : String → Option String)
    (secrets : Except String (List (String × String))) (o : Oracles)
    (recorderAvailable : Bool) (ev : UIEvent) (st : SessionState) :
    SessionState × List Effect :=
  if key_truthy (get_gemini_key env secrets) then
    let r := main_ui o recorderAvailable ev st
    (r.1, Effect.pageConfig :: Effect.title "Crypto Agent — Push-to-talk + Text" :: r.2)
  else
    (st, [Effect.errorBox gemini_missing_msg])

/-- Concrete network oracle for exercising get_crypto_price: one known
    symbol with a fixed price, every other symbol rejected with a 400
    status and a body without a price field. -/
def sampleNet : String → FetchOutcome :=
  fun s =>
    if s == "BTC" then FetchOutcome.response 200 ⟨some 2512345678901⟩
    else FetchOutcome.response 400 ⟨none⟩

/-- Benign concrete service bundle for exercising the handlers: the
    agent returns a fixed reply, recognition spells the byte values as
    lower-case letters, speech synthesis succeeds, and the content hash
    (standing in for sha256, which also separates the inputs used
    below) is an injective upper-case letter encoding. -/
def sampleOracles : Oracles :=
  ⟨fun _ => Except.ok "reply",
   fun b => Except.ok (String.mk (b.map (fun v => Char.ofNat (v % 26 + 97)))),
   ⟨fun _ => Except.ok [7], Except.ok (), Except.ok (), Except.ok ()⟩,
   fun b => String.mk (b.map (fun v => Char.ofNat (v % 26 + 65)))⟩

/-! Helper lemmas about the string model. -/

theorem splitChar_exists_cons (c : Char) (l : List Char) :
    ∃ g gs, splitChar c l = g :: gs := by
  induction l with
  | nil => exact ⟨[], [], rfl⟩
  | cons x xs ih =>
    obtain ⟨g, gs, hg⟩ := ih
    by_cases hx : x = c
    · exact ⟨[], g :: gs, by simp [splitChar, hg, hx]⟩
    · exact ⟨x :: g, gs, by simp [splitChar, hg, hx]⟩

theorem splitChar_ne_nil (c : Char) (l : List Char) : splitChar c l ≠ [] := by
  obtain ⟨g, gs, hg⟩ := splitChar_exists_cons c l
  simp [hg]

theorem splitChar_not_mem (c : Char) (l : List Char) (h : c ∉ l) : splitChar c l = [l] := by
  induction l with
  | nil => rfl
  | cons x xs ih =>
    have hx : ¬ x = c := fun e => h (by simp [e])
    have hxs : c ∉ xs := fun m => h (by simp [m])
    simp [splitChar, ih hxs, hx]

theorem splitChar_append_cons (c : Char) (a b : List Char) (h : c ∉ a) :
    splitChar c (a ++ c :: b) = a :: splitChar c b := by
  induction a with
  | nil =>
    obtain ⟨g, gs, hg⟩ := splitChar_exists_cons c b
    simp [splitChar, hg]
  | cons x xs ih =>
    have hx : ¬ x = c := fun e => h (by simp [e])
    have hxs : c ∉ xs := fun m => h (by simp [m])
    simp [splitChar, ih hxs, hx]

theorem splitChar_pyJoin :
    ∀ rs : List String, rs ≠ [] → (∀ r ∈ rs, '\n' ∉ r.data) →
      splitChar '\n' (pyJoin "\n" rs).data = rs.map String.data := by
  intro rs
  induction rs with
  | nil => intro h; exact absurd rfl h
  | cons x xs ih =>
    intro _ h
    cases xs with
    | nil =>
      simpa [pyJoin] using splitChar_not_mem '\n' x.data (h x (by simp))
    | cons y rest =>
      have hx : '\n' ∉ x.data := h x (by simp)
      have ihh := ih (by simp) (fun r hr => h r (by simp [hr]))
      have hdata : (pyJoin "\n" (x :: y :: rest)).data
          = x.data ++ '\n' :: (pyJoin "\n" (y :: rest)).data := by
        show (x ++ "\n" ++ pyJoin "\n" (y :: rest)).data = _
        simp [String.data_append, show "\n".data = ['\n'] from rfl]
      rw [hdata, splitChar_append_cons _ _ _ hx, ihh]
      rfl

theorem getD_map_str (f : String → String) (l : List String) (j : Nat) (hj : j < l.length) :
    (l.map f).getD j "" = f (l.getD j "") := by
  induction l generalizing j with
  | nil => simp at hj
  | cons x xs ih =>
    cases j with
    | zero => rfl
    | succ n =>
      have hn : n < xs.length := by simpa using hj
      simpa using ih n hn

theorem price_results_length (net : String → FetchOutcome) (symbols : String) :
    (price_results net symbols).length = (pySplit ',' symbols).length := by
  simp [price_results]

theorem price_results_ne_nil (net : String → FetchOutcome) (symbols : String) :
    price_results net symbols ≠ [] := by
  simp only [price_results, pySplit, ne_eq, List.map_eq_nil_iff]
  exact splitChar_ne_nil ',' symbols.data

theorem price_results_getD (net : String → FetchOutcome) (symbols : String) (j : Nat)
    (hj : j < (pySplit ',' symbols).length) :
    (price_results net symbols).getD j ""
      = fetch_one net (pyUpper (pyStrip ((pySplit ',' symbols).getD j ""))) := by
  unfold price_results
  rw [getD_map_str (fetch_one net) _ j (by simpa using hj),
    getD_map_str (fun s => pyUpper (pyStrip s)) _ j hj]

theorem fracDigits8_length (n : Nat) : (fracDigits8 n).length = 8 := by
  simp [fracDigits8, String.length]

theorem digitChar_isDigit : ∀ m, m < 10 → (digitChar m).isDigit = true := by decide

theorem fracDigits8_digits (n : Nat) : (fracDigits8 n).data.all Char.isDigit = true := by
  simp only [fracDigits8, List.all_eq_true, List.mem_map, List.mem_range]
  rintro x ⟨i, _, rfl⟩
  exact digitChar_isDigit _ (Nat.mod_lt _ (by omega))

theorem fetch_one_failure_marker (net : String → FetchOutcome) (sym : String)
    (h : isFailure (net sym) = true) :
    ∃ t, fetch_one net sym = sym ++ (": ❌ " ++ t) := by
  cases hn : net sym with
  | raised msg =>
    refine ⟨"Error - " ++ msg, ?_⟩
    have h1 : fetch_one net sym = sym ++ ": ❌ Error - " ++ msg := by simp [fetch_one, hn]
    rw [h1]
    exact String.ext (by
      simp [String.data_append,
        show ": ❌ Error - ".data = ": ❌ ".data ++ "Error - ".data from rfl])
  | response status data =>
    by_cases hs : status = 200
    · cases hp : data.priceField with
      | some p =>
        rw [hn] at h
        simp [isFailure, hs, hp] at h
      | none =>
        refine ⟨"Invalid or not found", ?_⟩
        have : fetch_one net sym = sym ++ ": ❌ Invalid or not found" := by
          simp [fetch_one, hn, hs, hp]
        rw [this]
        exact String.ext (by
          simp [String.data_append,
            show ": ❌ Invalid or not found".data
              = ": ❌ ".data ++ "Invalid or not found".data from rfl])
    · refine ⟨"Invalid or not found", ?_⟩
      have : fetch_one net sym = sym ++ ": ❌ Invalid or not found" := by
        simp [fetch_one, hn, hs]
      rw [this]
      exact String.ext (by
        simp [String.data_append,
          show ": ❌ Invalid or not found".data
            = ": ❌ ".data ++ "Invalid or not found".data from rfl])

/-! Claim theorems. -/

/-- C1, counterexample: the claim quantifies over every comma-separated
    input string, but a segment carrying an embedded newline yields a
    result whose body has more newline-delimited lines than there are
    segments.  At the one-segment input a-newline-b, with a network
    oracle that raises, the output has three lines instead of the
    claimed header line plus one body line. -/
theorem c1_counterexample :
    ¬ ((splitChar '\n' (get_crypto_price (fun _ => FetchOutcome.raised "boom") "a\nb").data).length
        = (pySplit ',' "a\nb").length + 1) := by decide

/-- C1, amended: whenever no per-symbol result string carries an
    embedded newline (which holds whenever no normalized symbol and no
    exception message contains one), the output of get_crypto_price
    splits at newlines into the Prices: header followed by exactly one
    result line per comma-separated input segment, in input order, and
    the line of index j is the fetched result for the normalized
    segment of index j. -/
theorem c1_one_line_per_segment (net : String → FetchOutcome) (symbols : String)
    (h : ∀ r ∈ price_results net symbols, '\n' ∉ r.data) :
    splitChar '\n' (get_crypto_price net symbols).data
        = "Prices:".data :: (price_results net symbols).map String.data
    ∧ (price_results net symbols).length = (pySplit ',' symbols).length
    ∧ ∀ j, j < (pySplit ',' symbols).length →
        (price_results net symbols).getD j ""
          = fetch_one net (pyUpper (pyStrip ((pySplit ',' symbols).getD j ""))) := by
  refine ⟨?_, price_results_length net symbols, fun j hj => price_results_getD net symbols j hj⟩
  have hd : (get_crypto_price net symbols).data
      = "Prices:".data ++ '\n' :: (pyJoin "\n" (price_results net symbols)).data := by
    show ("Prices:\n" ++ pyJoin "\n" (price_results net symbols)).data = _
    simp [String.data_append,
      show "Prices:\n".data = "Prices:".data ++ ['\n'] from rfl]
  rw [hd, splitChar_append_cons _ _ _ (by decide),
    splitChar_pyJoin _ (price_results_ne_nil net symbols) h]

/-- C1, witness for the amended theorem at a concrete two-segment
    input whose result lines are newline-free. -/
theorem c1_one_line_per_segment_witness :
    splitChar '\n' (get_crypto_price sampleNet "btc, zzz").data
        = "Prices:".data :: (price_results sampleNet "btc, zzz").map String.data :=
  (c1_one_line_per_segment sampleNet "btc, zzz" (by decide)).1

/-- C2: when the fetch for the segment of index i fails (an exception,
    a non-200 status, or a body without a price field), the result
    entry of index i is an error marker for that normalized symbol,
    the results still have one entry per segment, and every entry is
    still the fetched result of its own normalized segment, so no
    other symbol is affected. -/
theorem c2_failure_isolated (net : String → FetchOutcome) (symbols : String) (i : Nat)
    (hi : i < (pySplit ',' symbols).length)
    (hfail : isFailure (net (pyUpper (pyStrip ((pySplit ',' symbols).getD i "")))) = true) :
    get_crypto_price net symbols = "Prices:\n" ++ pyJoin "\n" (price_results net symbols)
    ∧ (price_results net symbols).length = (pySplit ',' symbols).length
    ∧ (∃ t, (price_results net symbols).getD i ""
        = pyUpper (pyStrip ((pySplit ',' symbols).getD i "")) ++ (": ❌ " ++ t))
    ∧ ∀ j, j < (pySplit ',' symbols).length →
        (price_results net symbols).getD j ""
          = fetch_one net (pyUpper (pyStrip ((pySplit ',' symbols).getD j ""))) := by
  refine ⟨rfl, price_results_length net symbols, ?_,
    fun j hj => price_results_getD net symbols j hj⟩
  rw [price_results_getD net symbols i hi]
  exact fetch_one_failure_marker net _ hfail

/-- C2, witness: at the input btc, zzz with an oracle that rejects the
    unknown symbol, the second entry is an error marker. -/
theorem c2_failure_isolated_witness :
    ∃ t, (price_results sampleNet "btc, zzz").getD 1 ""
        = pyUpper (pyStrip ((pySplit ',' "btc, zzz").getD 1 "")) ++ (": ❌ " ++ t) :=
  (c2_failure_isolated sampleNet "btc, zzz" 1 (by decide) (by decide)).2.2.1

/-- C3: get_crypto_price is the header plus the joined results, every
    result entry is the fetch of its stripped and upper-cased segment
    (so the network oracle is consulted at the normalized symbol),
    and every per-symbol result is either the symbol with a price whose
    fractional part has exactly eight decimal digits, or one of the two
    error markers; no other shape occurs. -/
theorem c3_normalized_two_shapes (net : String → FetchOutcome) (symbols : String) :
    get_crypto_price net symbols = "Prices:\n" ++ pyJoin "\n" (price_results net symbols)
    ∧ (∀ j, j < (pySplit ',' symbols).length →
        (price_results net symbols).getD j ""
          = fetch_one net (pyUpper (pyStrip ((pySplit ',' symbols).getD j ""))))
    ∧ ∀ sym,
        (∃ ip fr, fetch_one net sym = sym ++ ": $" ++ ip ++ "." ++ fr
            ∧ fr.length = 8 ∧ fr.data.all Char.isDigit = true)
        ∨ fetch_one net sym = sym ++ ": ❌ Invalid or not found"
        ∨ ∃ msg, fetch_one net sym = sym ++ ": ❌ Error - " ++ msg := by
  refine ⟨rfl, fun j hj => price_results_getD net symbols j hj, fun sym => ?_⟩
  cases hn : net sym with
  | raised msg =>
    exact Or.inr (Or.inr ⟨msg, by simp [fetch_one, hn]⟩)
  | response status data =>
    by_cases hs : status = 200
    · cases hp : data.priceField with
      | some p =>
        refine Or.inl ⟨String.mk (commaGroup (intDigits (p / 100000000))),
          fracDigits8 (p % 100000000), ?_, fracDigits8_length _, fracDigits8_digits _⟩
        have h1 : fetch_one net sym = sym ++ ": $" ++ formatComma8 p := by
          simp [fetch_one, hn, hs, hp]
        rw [h1]
        exact String.ext (by simp [formatComma8, String.data_append])
      | none =>
        exact Or.inr (Or.inl (by simp [fetch_one, hn, hs, hp]))
    · exact Or.inr (Or.inl (by simp [fetch_one, hn, hs]))

/-- C3, witness at a concrete input exercising the price shape. -/
theorem c3_normalized_two_shapes_witness :
    get_crypto_price sampleNet "btc, zzz"
      = "Prices:\n" ++ pyJoin "\n" (price_results sampleNet "btc, zzz") :=
  (c3_normalized_two_shapes sampleNet "btc, zzz").1

theorem except_bind_ok {α β γ : Type} (a : α) (f : α → Except γ β) :
    (Except.ok a >>= f) = f a := rfl

theorem except_bind_error {α β γ : Type} (e : γ) (f : α → Except γ β) :
    ((Except.error e : Except γ α) >>= f) = Except.error e := rfl

theorem mkEntry_status (n s : String) :
    (mkEntry n s).getKey "status" = Except.ok (Json.jstr s) := rfl

theorem mkEntry_symbol (n s : String) :
    (mkEntry n s).getKey "symbol" = Except.ok (Json.jstr n) := rfl

theorem collectTrading_mkEntries (rows : List (String × String)) :
    collectTrading (rows.map (fun r => mkEntry r.1 r.2))
      = Except.ok ((tradingNames rows).map Json.jstr) := by
  induction rows with
  | nil => rfl
  | cons r rest ih =>
    by_cases hs : (r.2 == "TRADING") = true
    · simp [collectTrading, mkEntry_status, mkEntry_symbol, jsonEqStr, hs, ih,
        tradingNames, List.filter_cons, except_bind_ok]
    · simp [collectTrading, mkEntry_status, mkEntry_symbol, jsonEqStr, hs,
        tradingNames, List.filter_cons, except_bind_ok]
      simpa [tradingNames] using ih

theorem joinCommaJson_map (l : List String) :
    joinCommaJson (l.map Json.jstr) = Except.ok (pyJoin ", " l) := by
  induction l with
  | nil => rfl
  | cons x xs ih =>
    cases xs with
    | nil => rfl
    | cons y rest =>
      have ih2 : joinCommaJson (Json.jstr y :: rest.map Json.jstr)
          = Except.ok (pyJoin ", " (y :: rest)) := ih
      show joinCommaJson (Json.jstr x :: Json.jstr y :: rest.map Json.jstr) = _
      simp [joinCommaJson, ih2, pyJoin, except_bind_ok]

/-- C4: on a successful call over any well-formed exchangeInfo rows,
    list_all_binance_symbols keeps exactly the rows whose status equals
    TRADING, reports their total count, and reports as a sample the
    first twenty of them; the sample never exceeds twenty names and is
    the whole list when at most twenty exist. -/
theorem c4_lister_filters_and_samples (rows : List (String × String)) :
    list_all_binance_symbols (Except.ok (exchangeInfoJson rows))
      = "Total trading pairs: " ++ toString (tradingNames rows).length
        ++ "\nSample: " ++ pyJoin ", " ((tradingNames rows).take 20) ++ ", ..."
    ∧ ((tradingNames rows).take 20).length ≤ 20
    ∧ ((tradingNames rows).length ≤ 20 → (tradingNames rows).take 20 = tradingNames rows) := by
  refine ⟨?_, by simp [List.length_take], fun h => List.take_of_length_le h⟩
  have hattempt : fetch_symbols_attempt (Except.ok (exchangeInfoJson rows))
      = Except.ok ("Total trading pairs: " ++ toString (tradingNames rows).length
          ++ "\nSample: " ++ pyJoin ", " ((tradingNames rows).take 20) ++ ", ...") := by
    simp [fetch_symbols_attempt, exchangeInfoJson, Json.getKey, List.lookup, Json.asArray,
      collectTrading_mkEntries, ← List.map_take, joinCommaJson_map, except_bind_ok,
      List.length_map]
  simp [list_all_binance_symbols, hattempt]

/-- C4, witness at two concrete rows, one trading and one on break. -/
theorem c4_lister_filters_and_samples_witness :
    list_all_binance_symbols (Except.ok (exchangeInfoJson [("AAA", "TRADING"), ("BBB", "BREAK")]))
      = "Total trading pairs: "
        ++ toString (tradingNames [("AAA", "TRADING"), ("BBB", "BREAK")]).length
        ++ "\nSample: "
        ++ pyJoin ", " ((tradingNames [("AAA", "TRADING"), ("BBB", "BREAK")]).take 20) ++ ", ..." :=
  (c4_lister_filters_and_samples [("AAA", "TRADING"), ("BBB", "BREAK")]).1

/-- C5: list_all_binance_symbols is a total function of the request
    outcome; when any step of the try block fails (the request itself,
    the field access, the iteration, or the join), the caller receives
    the single string built from the error message, and when the body
    succeeds the caller receives its string, so nothing is ever
    raised. -/
theorem c5_lister_error_string (resp : Except String Json) :
    (∀ s, fetch_symbols_attempt resp = Except.ok s → list_all_binance_symbols resp = s)
    ∧ (∀ e, fetch_symbols_attempt resp = Except.error e →
        list_all_binance_symbols resp = "Error fetching symbols: " ++ e)
    ∧ (∀ e, resp = Except.error e →
        list_all_binance_symbols resp = "Error fetching symbols: " ++ e) := by
  refine ⟨fun s h => by simp [list_all_binance_symbols, h],
    fun e h => by simp [list_all_binance_symbols, h], fun e h => ?_⟩
  have : fetch_symbols_attempt resp = Except.error e := by
    simp [fetch_symbols_attempt, h, except_bind_error]
  simp [list_all_binance_symbols, this]

/-- C5, witness: a failed request surfaces as the error string. -/
theorem c5_lister_error_string_witness :
    list_all_binance_symbols (Except.error "timeout") = "Error fetching symbols: timeout" :=
  (c5_lister_error_string (Except.error "timeout")).2.2 "timeout" rfl

/-- C6: when the key is absent from the environment and from the
    secrets store (whether the store is unreadable or readable without
    the key), the whole script run emits exactly the error box with the
    missing-key message, the session state is untouched, and no page
    effect of the main body is produced. -/
theorem c6_missing_key_halts (env : String → Option String)
    (secrets : Except String (List (String × String))) (o : Oracles)
    (recorderAvailable : Bool) (ev : UIEvent) (st : SessionState)
    (henv : env "GEMINI_API_KEY" = none)
    (hsec : ∀ tbl, secrets = Except.ok tbl → tbl.lookup "GEMINI_API_KEY" = none) :
    crypto_app_script env secrets o recorderAvailable ev st
      = (st, [Effect.errorBox gemini_missing_msg]) := by
  have hk : get_gemini_key env secrets = none := by
    cases hsecs : secrets with
    | error e => simp [get_gemini_key, henv, secrets_lookup, hsecs]
    | ok tbl => simp [get_gemini_key, henv, secrets_lookup, hsecs, hsec tbl hsecs]
  simp [crypto_app_script, hk, key_truthy]

/-- C6, witness: unset environment and an unreadable secrets store. -/
theorem c6_missing_key_halts_witness :
    crypto_app_script (fun _ => none) (Except.error "no secrets file") sampleOracles
      true ⟨false, false, "", none, none⟩ ⟨false, [], none⟩
      = (⟨false, [], none⟩, [Effect.errorBox gemini_missing_msg]) :=
  c6_missing_key_halts _ _ _ _ _ _ rfl (fun _tbl h => Except.noConfusion h)

/-- C7, counterexample: the claim says re-submitting audio identical to
    audio already processed anywhere in the session is skipped, but the
    script only remembers the hash of the most recent audio.  After
    processing the bytes 0 and then the bytes 1, re-submitting the
    bytes 0 (already processed in this session, as the first conjunct
    shows) appends new history entries, so it is not a no-op.  Sha256
    is modelled by the injective hash oracle of sampleOracles, which
    separates the two inputs exactly as sha256 does. -/
theorem c7_counterexample :
    (let st0 : SessionState := ⟨true, [], none⟩
     let st1 := (handle_audio sampleOracles st0 (some [0])).1
     let st2 := (handle_audio sampleOracles st1 (some [1])).1
     st1.history ≠ st0.history
     ∧ st1.last_audio_hash = some (sampleOracles.hashFn [0])
     ∧ (handle_audio sampleOracles st2 (some [0])).1.history ≠ st2.history) := by decide

/-- C7, amended: re-submitting audio whose bytes hash to the stored
    hash of the most recently submitted audio is a no-op: the session
    state (history included) is unchanged and the only effect is the
    duplicate info box, so no transcription, no agent call and no
    append happens, for every choice of the service oracles. -/
theorem c7_duplicate_audio_noop (o : Oracles) (st : SessionState) (bytes : List Nat)
    (hne : bytes.isEmpty = false)
    (hh : st.last_audio_hash = some (o.hashFn bytes)) :
    handle_audio o st (some bytes) = (st, [Effect.infoBox dup_audio_msg]) := by
  simp [handle_audio, hne, hh]

/-- C7, witness for the amended theorem on concrete bytes. -/
theorem c7_duplicate_audio_noop_witness :
    handle_audio sampleOracles ⟨true, [("You", "a")], some (sampleOracles.hashFn [0])⟩ (some [0])
      = (⟨true, [("You", "a")], some (sampleOracles.hashFn [0])⟩,
        [Effect.infoBox dup_audio_msg]) :=
  c7_duplicate_audio_noop sampleOracles _ [0] rfl rfl

/-- C8: speak_text_background never propagates a failure: for every
    oracle and text the result is a returned effect list; a generation
    failure yields exactly the logged message, an embedding failure is
    logged among the effects, and the session state produced by the
    text handler does not depend on the speech oracle at all, so the
    displayed conversation flow is unaffected. -/
theorem c8_tts_best_effort (o : TTSOracle) (text : String) :
    (∃ es, speak_text_background o text = Except.ok es)
    ∧ (∀ e, o.gen text = Except.error e →
        speak_text_background o text
          = Except.ok [Effect.log ("TTS generation/playback failed: " ++ e)])
    ∧ (∀ bytes eh, o.gen text = Except.ok bytes → o.htmlOutcome = Except.error eh →
        ∃ es, speak_text_background o text = Except.ok es
          ∧ Effect.log ("components.html error: " ++ eh) ∈ es)
    ∧ ∀ (ag : String → Except String String) (rec : List Nat → Except String String)
        (hf : List Nat → String) (t1 t2 : TTSOracle) (st : SessionState)
        (submit : Bool) (input : String),
        (handle_text_submit ⟨ag, rec, t1, hf⟩ st submit input).1
          = (handle_text_submit ⟨ag, rec, t2, hf⟩ st submit input).1 := by
  refine ⟨?_, ?_, ?_, ?_⟩
  · cases hg : o.gen text with
    | error e =>
      exact ⟨[Effect.log ("TTS generation/playback failed: " ++ e)],
        by simp [speak_text_background, hg]⟩
    | ok bytes =>
      cases hh : o.htmlOutcome with
      | ok u =>
        cases ha : o.audioOutcome1 with
        | ok v =>
          exact ⟨[Effect.htmlAudio bytes, Effect.audioPlayer bytes],
            by simp [speak_text_background, hg, hh, ha]⟩
        | error e =>
          exact ⟨[Effect.htmlAudio bytes, Effect.log ("st.audio fallback error: " ++ e)],
            by simp [speak_text_background, hg, hh, ha]⟩
      | error eh =>
        cases ha : o.audioOutcome2 with
        | ok v =>
          exact ⟨[Effect.log ("components.html error: " ++ eh), Effect.audioPlayer bytes],
            by simp [speak_text_background, hg, hh, ha]⟩
        | error e2 =>
          exact ⟨[Effect.log ("components.html error: " ++ eh),
              Effect.log ("st.audio error after components failed: " ++ e2)],
            by simp [speak_text_background, hg, hh, ha]⟩
  · intro e hg
    simp [speak_text_background, hg]
  · intro bytes eh hg hh
    cases ha : o.audioOutcome2 with
    | ok v =>
      exact ⟨[Effect.log ("components.html error: " ++ eh), Effect.audioPlayer bytes],
        by simp [speak_text_background, hg, hh, ha], by simp⟩
    | error e2 =>
      exact ⟨[Effect.log ("components.html error: " ++ eh),
          Effect.log ("st.audio error after components failed: " ++ e2)],
        by simp [speak_text_background, hg, hh, ha], by simp⟩
  · intro ag rec hf t1 t2 st submit input
    by_cases hgd : (submit && input != "" && pyStrip input != "") = true
    · simp [handle_text_submit, hgd]
    · simp [handle_text_submit, hgd]

/-- C8, witness: a generation failure is logged and returned. -/
theorem c8_tts_best_effort_witness :
    speak_text_background
      ⟨fun _ => Except.error "gtts down", Except.ok (), Except.ok (), Except.ok ()⟩ "hello"
      = Except.ok [Effect.log ("TTS generation/playback failed: " ++ "gtts down")] :=
  (c8_tts_best_effort
    ⟨fun _ => Except.error "gtts down", Except.ok (), Except.ok (), Except.ok ()⟩
    "hello").2.1 "gtts down" rfl

theorem handle_text_submit_extends (o : Oracles) (st : SessionState) (b : Bool)
    (inp : String) :
    ∃ added, (handle_text_submit o st b inp).1.history = st.history ++ added := by
  by_cases h : (b && inp != "" && pyStrip inp != "") = true
  · refine ⟨[("You", pyStrip inp),
      ("Agent", match o.agent (pyStrip inp) with
        | Except.ok r => r
        | Except.error e => "Agent error: " ++ e)], ?_⟩
    simp [handle_text_submit, h, append_history]
  · exact ⟨[], by simp [handle_text_submit, h]⟩

theorem handle_audio_process_extends (o : Oracles) (st : SessionState) (bytes : List Nat) :
    ∃ added, (handle_audio_process o st bytes).1.history = st.history ++ added := by
  cases hr : o.recognize bytes with
  | error e => exact ⟨[], by simp [handle_audio_process, hr]⟩
  | ok recognized =>
    cases ha : o.agent recognized with
    | error e =>
      exact ⟨[("You", recognized)], by simp [handle_audio_process, hr, ha, append_history]⟩
    | ok response =>
      exact ⟨[("You", recognized), ("Agent", response)],
        by simp [handle_audio_process, hr, ha, append_history]⟩

theorem handle_audio_extends (o : Oracles) (st : SessionState) (ab : Option (List Nat)) :
    ∃ added, (handle_audio o st ab).1.history = st.history ++ added := by
  cases ab with
  | none => exact ⟨[], by simp [handle_audio]⟩
  | some bytes =>
    by_cases he : bytes.isEmpty = true
    · exact ⟨[], by simp [handle_audio, he]⟩
    · by_cases hh : st.last_audio_hash = some (o.hashFn bytes)
      · exact ⟨[], by simp [handle_audio, he, hh]⟩
      · obtain ⟨added, hadd⟩ := handle_audio_process_extends o
          { st with last_audio_hash := some (o.hashFn bytes) } bytes
        exact ⟨added, by simpa [handle_audio, he, hh] using hadd⟩

theorem main_ui_extends (o : Oracles) (ra : Bool) (ev : UIEvent) (st : SessionState) :
    ∃ added, (main_ui o ra ev st).1.history = st.history ++ added := by
  by_cases hen : st.audio_enabled = true
  · obtain ⟨a1, h1⟩ := handle_text_submit_extends o st ev.submit ev.textInput
    by_cases hra : ra = true
    · obtain ⟨a2, h2⟩ := handle_audio_extends o
        (handle_text_submit o st ev.submit ev.textInput).1 ev.recordedAudio
      exact ⟨a1 ++ a2, by simp [main_ui, hen, hra, h2, h1, List.append_assoc]⟩
    · cases hu : ev.uploadedWav with
      | none => exact ⟨a1, by simp [main_ui, hen, hra, hu, h1]⟩
      | some bytes =>
        obtain ⟨a2, h2⟩ := handle_audio_process_extends o
          (handle_text_submit o st ev.submit ev.textInput).1 bytes
        exact ⟨a1 ++ a2, by simp [main_ui, hen, hra, hu, h2, h1, List.append_assoc]⟩
  · by_cases hec : ev.enableClicked = true
    · exact ⟨[], by simp [main_ui, hen, hec]⟩
    · exact ⟨[], by simp [main_ui, hen, hec]⟩

/-- C9: the conversation history is append-only.  The append operation
    itself appends exactly one role-text pair at the end, and every
    whole page run (with or without the key check) leaves the previous
    history as an unchanged prefix and only ever appends after it: no
    entry is modified, removed or reordered. -/
theorem c9_history_append_only :
    (∀ (st : SessionState) (role text : String),
        (append_history st role text).history = st.history ++ [(role, text)])
    ∧ (∀ (o : Oracles) (ra : Bool) (ev : UIEvent) (st : SessionState),
        ∃ added, (main_ui o ra ev st).1.history = st.history ++ added)
    ∧ (∀ (env : String → Option String) (secrets : Except String (List (String × String)))
        (o : Oracles) (ra : Bool) (ev : UIEvent) (st : SessionState),
        ∃ added, (crypto_app_script env secrets o ra ev st).1.history = st.history ++ added) := by
  refine ⟨fun st role text => rfl, main_ui_extends, ?_⟩
  intro env secrets o ra ev st
  by_cases hk : key_truthy (get_gemini_key env secrets) = true
  · obtain ⟨a, ha⟩ := main_ui_extends o ra ev st
    exact ⟨a, by simp [crypto_app_script, hk, ha]⟩
  · exact ⟨[], by simp [crypto_app_script, hk]⟩

/-- C10: submitting the text form with an empty or whitespace-only
    input is a no-op: the handler returns the session state unchanged
    and emits no effect, so nothing is appended, no agent call is
    reflected and no speech is triggered, for every service oracle. -/
theorem c10_blank_submit_noop (o : Oracles) (st : SessionState) (submit : Bool)
    (user_input : String) (h : pyStrip user_input = "") :
    handle_text_submit o st submit user_input = (st, []) := by
  have hb : (submit && user_input != "" && pyStrip user_input != "") = false := by
    simp [h]
  simp [handle_text_submit, hb]

/-- C10, witness on a whitespace-only input. -/
theorem c10_blank_submit_noop_witness :
    handle_text_submit sampleOracles ⟨true, [("You", "hi")], none⟩ true "   "
      = (⟨true, [("You", "hi")], none⟩, []) :=
  c10_blank_submit_noop sampleOracles _ true "   " (by decide)
